import Mathlib

/-!
Shallow embedding of the geographic entity-resolution and caching engine of
the `re_data` repository, together with proofs settling the frozen claims
about it.

Sources embedded:
- `src/opt/improved_index_manager_nor_opt.ts` (state index cache,
  `loadStateIndexes`, `loadStateCSV`, `normalizeZipCode`,
  `normalizeCountyCode`, `getRedfinId`, `clearStateCache`,
  `filterRedfinByRelevantIds`)
- `src/unnamed/part_003` (`normalizeCountyId`)
- `src/unnamed/part_000` (`UnifiedDataService.buildUnifiedLookup`,
  `getStateName`, `getCitiesInState`)

Conventions of the embedding:
- JavaScript runtime values flowing through the untyped (`any`) rows are
  modelled by `JVal` (string, integer number, NaN, null).  All numeric
  fields of the CSV index rows are produced by `parseInt`, so integers
  suffice for the number case; `null` and `undefined` are collapsed into
  one constructor, which is adequate for the operations the code performs
  on them (strict equality against strings/numbers, truthiness, optional
  chaining).
- JavaScript string primitives (`trim`, `replace(/\D/g,"")`, `padStart`,
  `toLowerCase`, `includes`, `split`) are modelled by executable
  char-list functions over ASCII data, written out below, so every
  theorem can be evaluated by `decide` on concrete inputs.
- Asynchrony is irrelevant to the claims (single-threaded event loop, no
  interleaving is observable by them), so `async` functions are modelled
  as pure functions; the fetch boundary becomes an explicit oracle
  `String → String → FetchResult`, and the number of underlying fetches a
  call performs is returned as an explicit log.
-/

/-- A JavaScript value as it occurs in the rows handled by the engine:
a string, an integer number, `NaN`, or `null`/`undefined` (collapsed). -/
inductive JVal where
  | vstr (s : String)
  | vnum (n : Int)
  | vnan
  | vnull
deriving DecidableEq, Repr

/-- Result of JavaScript `parseInt`: an integer or `NaN`. -/
inductive JNum where
  | nan
  | int (n : Int)
deriving DecidableEq, Repr

/-- JavaScript strict equality `===` restricted to the values of `JVal`.
`NaN === x` is false for every `x`, including `NaN` itself. -/
def strictEq : JVal → JVal → Bool
  | .vstr a, .vstr b => a == b
  | .vnum a, .vnum b => a == b
  | .vnull, .vnull => true
  | _, _ => false

/-- JavaScript falsiness for the values of `JVal`: `""`, `0`, `NaN`,
`null`/`undefined` are falsy. -/
def jsFalsy : JVal → Bool
  | .vstr s => s.toList.isEmpty
  | .vnum n => n == 0
  | .vnan => true
  | .vnull => true

/-- JavaScript truthiness. -/
def jsTruthy (v : JVal) : Bool := !jsFalsy v

/-- JavaScript `a || b` on values (returns `a` when truthy, else `b`). -/
def jsOr (a b : JVal) : JVal := if jsTruthy a then a else b

/-- JavaScript `String(v)` / `v.toString()` coercion for the values of
`JVal` (used by `parseInt` and template literals). -/
def jsToString : JVal → String
  | .vstr s => s
  | .vnum n => toString n
  | .vnan => "NaN"
  | .vnull => "null"

/-- Untyped row (`any`): the object built by the CSV loader, as an
association list from column name to value; absent columns read as
`undefined` (here `JVal.vnull`). -/
abbrev JRow := List (String × JVal)

/-- JavaScript property access `row[k]` on a `JRow` (absent key gives
`undefined`, modelled as `JVal.vnull`). -/
def jget (r : JRow) (k : String) : JVal :=
  match r.find? (fun p => p.1 == k) with
  | some p => p.2
  | none => .vnull

/-- Strip leading and trailing whitespace from a char list (model of
JavaScript `String.prototype.trim`). -/
def trimList (l : List Char) : List Char :=
  ((l.dropWhile Char.isWhitespace).reverse.dropWhile Char.isWhitespace).reverse

/-- Model of JavaScript `s.trim()`. -/
def jsTrim (s : String) : String := String.mk (trimList s.toList)

/-- Model of JavaScript `s.replace(/\D/g, "")`: keep only the digits. -/
def stripNonDigits (s : String) : String := String.mk (s.toList.filter Char.isDigit)

/-- Model of JavaScript `s.padStart(n, c)`. -/
def padStart (n : Nat) (c : Char) (s : String) : String :=
  if n ≤ s.toList.length then s
  else String.mk (List.replicate (n - s.toList.length) c ++ s.toList)

/-- Model of JavaScript `s.toLowerCase()` (ASCII data). -/
def jsToLower (s : String) : String := String.mk (s.toList.map Char.toLower)

/-- Does `sub` occur as a contiguous run inside the list? -/
def listHasInfix (sub : List Char) : List Char → Bool
  | [] => sub.isEmpty
  | x :: xs => sub.isPrefixOf (x :: xs) || listHasInfix sub xs

/-- Model of JavaScript `s.includes(sub)`. -/
def strContains (s sub : String) : Bool := listHasInfix sub.toList s.toList

/-- Split a char list at every occurrence of one character
(model of JavaScript `s.split(c)` for a one-character separator). -/
def splitOnChar (c : Char) : List Char → List (List Char)
  | [] => [[]]
  | x :: xs =>
    let r := splitOnChar c xs
    if x == c then [] :: r
    else
      match r with
      | [] => [[x]]
      | h :: t => (x :: h) :: t

/-- Model of JavaScript `s.split(c)` for a one-character separator. -/
def jsSplitChar (c : Char) (s : String) : List String :=
  (splitOnChar c s.toList).map String.mk

/-- Fuelled worker for splitting at a multi-character separator; the fuel
is an upper bound on the number of characters still to be consumed, so the
last equation is never reached when called with enough fuel. -/
def splitSepFuel (sep : List Char) : Nat → List Char → List (List Char)
  | _, [] => [[]]
  | 0, l => [l]
  | fuel + 1, x :: xs =>
    if sep ≠ [] && sep.isPrefixOf (x :: xs) then
      [] :: splitSepFuel sep fuel ((x :: xs).drop sep.length)
    else
      match splitSepFuel sep fuel xs with
      | [] => [[x]]
      | h :: t => (x :: h) :: t

/-- Model of JavaScript `s.split(sep)` for a non-empty separator string. -/
def jsSplitStr (sep s : String) : List String :=
  (splitSepFuel sep.toList s.toList.length s.toList).map String.mk

/-- Leading decimal digits of a char list as a number, if any. -/
def leadingNat (l : List Char) : Option Nat :=
  let ds := l.takeWhile Char.isDigit
  if ds.isEmpty then none
  else some (ds.foldl (fun a c => a * 10 + (c.toNat - Char.toNat '0')) 0)

/-- Model of JavaScript `parseInt(s)` (base 10): skip leading whitespace,
accept an optional sign, read leading digits, `NaN` when none. -/
def jsParseIntStr (s : String) : JNum :=
  match s.toList.dropWhile Char.isWhitespace with
  | '-' :: rest =>
    match leadingNat rest with
    | some n => .int (-(n : Int))
    | none => .nan
  | '+' :: rest =>
    match leadingNat rest with
    | some n => .int n
    | none => .nan
  | l =>
    match leadingNat l with
    | some n => .int n
    | none => .nan

/-- Model of JavaScript `parseInt(v)` on an arbitrary value: the argument
is coerced to a string first (`parseInt(null)` parses `"null"`, hence
`NaN`; `parseInt(7)` parses `"7"`). -/
def jsParseInt (v : JVal) : JNum := jsParseIntStr (jsToString v)

/-- Embed a `parseInt` result back into `JVal` (for `=== parseInt(area)`
comparisons). -/
def jnumToJVal : JNum → JVal
  | .nan => .vnan
  | .int n => .vnum n

/-- Deduplication keeping the first occurrence of each element, the
effect of JavaScript `[...new Set(l)]`. -/
def dedupAux (seen : List String) : List String → List String
  | [] => []
  | x :: xs => if seen.contains x then dedupAux seen xs else x :: dedupAux (x :: seen) xs

/-- `[...new Set(l)]`. -/
def dedupFirst (l : List String) : List String := dedupAux [] l

/-!
## `src/opt/improved_index_manager_nor_opt.ts`
-/

/-- `normalizeZipCode` (lines 104-109): falsy non-zero input gives `""`;
otherwise strip non-digits from the trimmed string form and left-pad to 5
with `0`. -/
def normalizeZipCode (zip : JVal) : String :=
  if jsFalsy zip && !(zip == .vnum 0) then ""
  else padStart 5 '0' (stripNonDigits (jsTrim (jsToString zip)))

/-- `normalizeCountyCode` (lines 111-122): falsy non-zero input gives
`""`; strip non-digits; a 5-digit FIPS keeps its last 3 digits, anything
else is left-padded to 3 with `0`. -/
def normalizeCountyCode (county : JVal) : String :=
  if jsFalsy county && !(county == .vnum 0) then ""
  else
    let cleanCounty := stripNonDigits (jsTrim (jsToString county))
    if cleanCounty.toList.length == 5 then String.mk (cleanCounty.toList.drop 2)
    else padStart 3 '0' cleanCounty

/-- One cached entry of `stateIndexCache` (lines 12-17): the three row
collections plus the load time. -/
structure StateIndexEntry where
  counties : List JRow
  zips : List JRow
  tracts : List JRow
  loadTime : Nat
deriving DecidableEq, Repr

/-- The module-level `stateIndexCache : Map<string, …>`, modelled
extensionally as a partial map from state code to entry. -/
abbrev StateCache := String → Option StateIndexEntry

/-- Outcome of one `fetch` of a per-state index CSV: an OK response with
a body, a non-OK HTTP response, or a thrown error. -/
inductive FetchResult where
  | ok (body : String)
  | httpError (status : Nat)
  | failed
deriving DecidableEq, Repr

/-- Is this fetch outcome a failure (non-OK response or thrown error)? -/
def fetchFailed : FetchResult → Bool
  | .ok _ => false
  | .httpError _ => true
  | .failed => true

/-- Field conversion of the CSV loader (lines 82-91): columns whose name
contains `zipcode`, `table_id` or `fips`, or equals `GEOID`, are parsed
with `parseInt` (empty value gives `null`); every other column stays a
string. -/
def csvFieldValue (header value : String) : JVal :=
  if strContains header "zipcode" || strContains header "table_id" ||
      strContains header "fips" || header == "GEOID" then
    if value.toList.isEmpty then .vnull else jnumToJVal (jsParseIntStr value)
  else .vstr value

/-- `loadStateCSV` (lines 65-99).  The fetch boundary is the explicit
oracle `fetch`; one call performs exactly one underlying fetch of
`(state, level)`.  A non-OK response returns `[]` (lines 70-73); a thrown
error is caught and returns `[]` (lines 95-98) — this also covers the
`lines[0]` access on an empty body.  Otherwise the body is split into
non-blank lines, the first line gives the headers, and each further line
becomes a row object keyed by header. -/
def loadStateCSV (fetch : String → String → FetchResult) (stateAbbrev level : String) :
    List JRow :=
  match fetch stateAbbrev level with
  | .httpError _ => []
  | .failed => []
  | .ok csvText =>
    let lines := (jsSplitChar '\n' csvText).filter (fun l => !(jsTrim l).toList.isEmpty)
    match lines with
    | [] => []
    | firstLine :: rest =>
      let headers := (jsSplitChar ',' firstLine).map jsTrim
      rest.map (fun line =>
        let values := jsSplitChar ',' line
        headers.enum.map (fun p =>
          let value := jsTrim ((values.get? p.1).getD "")
          (p.2, csvFieldValue p.2 value)))

/-- `loadStateIndexes` (lines 22-60), as a state transformer on the
cache.  `now` stands for the measured load time; the third component is
the list of `(state, level)` fetches the call performed (one per
`loadStateCSV` call).  A cache hit returns `true` immediately with no
fetch; otherwise all three files are loaded and the entry is stored.
`loadStateCSV` is total, so the `catch` branch returning `false` is
unreachable and the call always returns `true`. -/
def loadStateIndexes (fetch : String → String → FetchResult) (cache : StateCache)
    (stateAbbrev : String) (now : Nat) :
    Bool × StateCache × List (String × String) :=
  if (cache stateAbbrev).isSome then (true, cache, [])
  else
    let counties := loadStateCSV fetch stateAbbrev "county"
    let zips := loadStateCSV fetch stateAbbrev "zip"
    let tracts := loadStateCSV fetch stateAbbrev "tract"
    (true,
     fun k => if k == stateAbbrev then some ⟨counties, zips, tracts, now⟩ else cache k,
     [(stateAbbrev, "county"), (stateAbbrev, "zip"), (stateAbbrev, "tract")])

/-- `clearStateCache` (lines 315-323): with an argument, delete that
state's entry; with no argument, clear the whole cache. -/
def clearStateCache (cache : StateCache) (stateAbbrev : Option String) : StateCache :=
  match stateAbbrev with
  | some s => fun k => if k == s then none else cache k
  | none => fun _ => none

/-- Geographic level argument of `getRedfinId`. -/
inductive RedfinLevel where
  | county
  | zip
deriving DecidableEq, Repr

/-- The first exact strategy of the zip branch (lines 138-143): compare
`ZIPCODE` (as string and against `parseInt(area)`), `zipcode` and
`zip_code` string forms with the area. -/
def zipExactMatch (area : String) (row : JRow) : Bool :=
  (match jget row "ZIPCODE" with
   | .vnull => false
   | v => jsToString v == area) ||
  strictEq (jget row "ZIPCODE") (jnumToJVal (jsParseIntStr area)) ||
  (match jget row "zipcode" with
   | .vnull => false
   | v => jsToString v == area) ||
  (match jget row "zip_code" with
   | .vnull => false
   | v => jsToString v == area)

/-- The normalized zip strategy (lines 150-153). -/
def zipNormMatch (area : String) (row : JRow) : Bool :=
  normalizeZipCode (jget row "ZIPCODE") == normalizeZipCode (.vstr area)

/-- County strategy 1 (lines 166-168): `row.GEOID === area` — `area` is
already a string here, so `area.toString()` adds nothing. -/
def countyExactGeoid (area : String) (row : JRow) : Bool :=
  strictEq (jget row "GEOID") (.vstr area)

/-- County strategy 2 (lines 176-178): `row.fred_county_fips === area`. -/
def countyExactFred (area : String) (row : JRow) : Bool :=
  strictEq (jget row "fred_county_fips") (.vstr area)

/-- Lower-cased substring test behind the optional chaining
`field?.toLowerCase().includes(area.toLowerCase())`: absent fields fail;
the loader stores these name columns as strings. -/
def includesLower (v : JVal) (area : String) : Bool :=
  match v with
  | .vstr s => strContains (jsToLower s) (jsToLower area)
  | _ => false

/-- County strategy 3 (lines 186-190): name-substring matching against
`NAME`, `NAMELSAD` and `region`. -/
def countyNameMatch (area : String) (row : JRow) : Bool :=
  includesLower (jget row "NAME") area ||
  includesLower (jget row "NAMELSAD") area ||
  includesLower (jget row "region") area

/-- County strategy 4 (lines 198-204): normalized comparison of
`COUNTYFP || GEOID` against the area. -/
def countyNormMatch (area : String) (row : JRow) : Bool :=
  normalizeCountyCode (jsOr (jget row "COUNTYFP") (jget row "GEOID")) ==
    normalizeCountyCode (.vstr area)

/-- The county branch of `getRedfinId` (lines 162-211): the four
strategies are tried in source order — GEOID exact, `fred_county_fips`
exact, name substring, normalized — each returning
`parseInt(record.table_id)` on its first hit. -/
def getRedfinIdCounty (counties : List JRow) (area : String) : Option JNum :=
  match counties.find? (countyExactGeoid area) with
  | some r => some (jsParseInt (jget r "table_id"))
  | none =>
    match counties.find? (countyExactFred area) with
    | some r => some (jsParseInt (jget r "table_id"))
    | none =>
      match counties.find? (countyNameMatch area) with
      | some r => some (jsParseInt (jget r "table_id"))
      | none =>
        match counties.find? (countyNormMatch area) with
        | some r => some (jsParseInt (jget r "table_id"))
        | none => none

/-- The zip branch of `getRedfinId` (lines 136-160): exact match first,
then normalized; the hit is used only when its `redfin_tableid_zip` is
truthy, otherwise the function falls through to `null`. -/
def getRedfinIdZip (zips : List JRow) (area : String) : Option JNum :=
  let zipRecord :=
    match zips.find? (zipExactMatch area) with
    | some r => some r
    | none => zips.find? (zipNormMatch area)
  match zipRecord with
  | some r =>
    if jsTruthy (jget r "redfin_tableid_zip") then
      some (jsParseInt (jget r "redfin_tableid_zip"))
    else none
  | none => none

/-- `getRedfinId` (lines 127-215): `null` when the state is not cached,
otherwise dispatch on the level. -/
def getRedfinId (cache : StateCache) (stateAbbrev area : String) (level : RedfinLevel) :
    Option JNum :=
  match cache stateAbbrev with
  | none => none
  | some stateData =>
    match level with
    | .zip => getRedfinIdZip stateData.zips area
    | .county => getRedfinIdCounty stateData.counties area

/-- Membership of a `parseInt` result in the relevant-ID array
(`relevantIds.includes(parseInt(...))`); `NaN` is never a member. -/
def jnumMem (v : JNum) (ids : List Int) : Bool :=
  match v with
  | .nan => false
  | .int n => ids.contains n

/-- `filterRedfinByRelevantIds` (lines 595-610): an empty ID set returns
the data unfiltered; otherwise keep exactly the records whose `table_id`
parses into the set. -/
def filterRedfinByRelevantIds (redfinData : List JRow) (relevantIds : List Int) :
    List JRow :=
  if relevantIds.isEmpty then redfinData
  else redfinData.filter (fun record => jnumMem (jsParseInt (jget record "table_id")) relevantIds)

/-!
## `src/unnamed/part_003` (`data_column_selections_tract_opt.ts`)
-/

/-- The `variations` array of `normalizeCountyId` (part_003 lines
516-532) for a trimmed id string: start from the id itself, push the
state-prefixed form for 3-character ids (when a truthy prefix is
supplied), push the `0`-prefixed form for 4-character ids, and push the
form without the first character for 5-character ids. -/
def countyIdVariations (idStr : String) (addStatePrefix : Option String) : List String :=
  let v₁ := [idStr]
  let v₂ :=
    match addStatePrefix with
    | some p => if idStr.toList.length == 3 && !p.toList.isEmpty then v₁ ++ [p ++ idStr] else v₁
    | none => v₁
  let v₃ := if idStr.toList.length == 4 then v₂ ++ ["0" ++ idStr] else v₂
  if idStr.toList.length == 5 then v₃ ++ [String.mk (idStr.toList.drop 1)] else v₃

/-- `normalizeCountyId` (part_003 lines 513-535): falsy input gives `[]`;
otherwise collect the variations of the trimmed string form and
deduplicate (`[...new Set(variations)]`). -/
def normalizeCountyId (id : JVal) (addStatePrefix : Option String) : List String :=
  if jsFalsy id then []
  else dedupFirst (countyIdVariations (jsTrim (jsToString id)) addStatePrefix)

/-!
## `src/unnamed/part_000` (`unified-data-service.ts`)

Data model of the taxonomy index, the flat zip records, and the merged
`UnifiedLocation`.  Coordinates are modelled as rationals (the code only
copies them, never computes with them), integer-valued fields as `Int`.
Fields of the source interfaces that `buildUnifiedLookup` and the query
methods never read (`metadata`, `search_terms`, the top-level
`property_types` table, the optional Redfin table-id columns) are
omitted from the structures.
-/

/-- `PropertyType` of the taxonomy. -/
structure PropertyType where
  name : String
  table_id : String
deriving DecidableEq, Repr

/-- `StateInfo` of the taxonomy. -/
structure StateInfo where
  state_code : String
  property_types : List (String × PropertyType)
  primary_table_id : Int
deriving DecidableEq, Repr

/-- `CountyInfo` of the taxonomy. -/
structure CountyInfo where
  county_name : String
  state_code : String
  property_types : List (String × PropertyType)
  primary_table_id : Int
  cities : List String
  zip_codes : List String
deriving DecidableEq, Repr

/-- `CityInfo` of the taxonomy. -/
structure CityInfo where
  city_name : String
  state_code : String
  property_types : List (String × PropertyType)
  primary_table_id : Int
deriving DecidableEq, Repr

/-- `ZipInfo` of the taxonomy. -/
structure ZipInfo where
  zip_code : String
  state_code : String
  property_types : List (String × PropertyType)
  primary_table_id : Int
deriving DecidableEq, Repr

/-- `RedfInMasterIndex`: the four keyed sections, as key/value lists in
object insertion order (`Object.entries` order). -/
structure RedfinMasterIndex where
  states : List (String × StateInfo)
  counties : List (String × CountyInfo)
  cities : List (String × CityInfo)
  zip_codes : List (String × ZipInfo)
deriving DecidableEq, Repr

/-- A JavaScript decimal number literal, kept as mantissa and decimal
shift (the value is `mantissa / 10 ^ shift`).  The engine only copies
coordinate values between records — it never computes with them in any
embedded operation — so this structural representation with structural
equality is adequate and keeps every theorem kernel-evaluable. -/
structure JSNumber where
  mantissa : Int
  shift : Nat
deriving DecidableEq, Repr

instance : OfNat JSNumber n := ⟨⟨n, 0⟩⟩

/-- `ZipMasterRecord`: one flat zip-level row. -/
structure ZipMasterRecord where
  zipcode : String
  state_code : String
  state_name : String
  data_source : String
  has_census_data : Bool
  has_redfin_data : Bool
  has_geometry : Bool
  geojson_file : String
  data_file : String
  redfin_city : Option String := none
  census_city : Option String := none
  parent_metro_region : Option String := none
  redfin_county_name : Option String := none
  INTPTLAT : JSNumber
  INTPTLON : JSNumber
  ALAND : Int
  AWATER : Int
deriving DecidableEq, Repr

/-- Data-availability flags of a `UnifiedLocation`. -/
structure HasData where
  census : Bool
  redfin : Bool
  geometry : Bool
deriving DecidableEq, Repr

/-- `UnifiedLocation`: the merged view; optional fields default to
`undefined` (`none`). -/
structure UnifiedLocation where
  zipCode : Option String := none
  stateCode : String
  stateName : String
  propertyTypes : List (String × PropertyType)
  primaryTableId : Int
  hierarchicalPath : String
  coordinates : JSNumber × JSNumber
  geoJsonFile : Option String := none
  dataFile : Option String := none
  hasData : HasData
  landArea : Option Int := none
  waterArea : Option Int := none
  metroRegion : Option String := none
  dataSource : Option String := none
  parentCounty : Option String := none
  parentState : Option String := none
  childCities : Option (List String) := none
  childZips : Option (List String) := none
deriving DecidableEq, Repr

/-- `Map.get` on the insertion-ordered map model. -/
def mapGet (m : List (String × α)) (k : String) : Option α :=
  match m.find? (fun p => p.1 == k) with
  | some p => some p.2
  | none => none

/-- `Map.set` on the insertion-ordered map model: replace in place when
the key is present, append otherwise. -/
def mapSet (m : List (String × α)) (k : String) (v : α) : List (String × α) :=
  if m.any (fun p => p.1 == k) then
    m.map (fun p => if p.1 == k then (k, v) else p)
  else m ++ [(k, v)]

/-- The `zipLookup` auxiliary map (lines 441-444), keyed by `zipcode`;
later records with the same zipcode overwrite earlier ones (`Map.set`). -/
def zipLookupMap (zipMasterData : List ZipMasterRecord) : List (String × ZipMasterRecord) :=
  zipMasterData.foldl (fun m record => mapSet m record.zipcode record) []

/-- Exact zipcode lookup through the auxiliary map. -/
def zipLookup (zipMasterData : List ZipMasterRecord) (zipCode : String) :
    Option ZipMasterRecord :=
  mapGet (zipLookupMap zipMasterData) zipCode

/-- `getStateName` (lines 577-586): reverse lookup of the state name by
state code in the taxonomy, falling back to the code itself. -/
def getStateName (tax : RedfinMasterIndex) (stateCode : String) : String :=
  match tax.states.find? (fun p => p.2.state_code == stateCode) with
  | some p => p.1
  | none => stateCode

/-- First comma-delimited segment of the lower-cased name
(`name.toLowerCase().split(",")[0]`). -/
def firstSegLower (name : String) : String :=
  (jsSplitChar ',' (jsToLower name)).headD ""

/-- The state entry built for one taxonomy state (lines 447-470). -/
def mkStateLocation (mz : List ZipMasterRecord) (stateName : String) (si : StateInfo) :
    UnifiedLocation :=
  let stateZips := mz.filter (fun z => z.state_code == si.state_code)
  { stateCode := si.state_code
    stateName := stateName
    propertyTypes := si.property_types
    primaryTableId := si.primary_table_id
    hierarchicalPath := stateName
    coordinates :=
      match stateZips.head? with
      | some r => (r.INTPTLAT, r.INTPTLON)
      | none => (0, 0)
    hasData :=
      { census := stateZips.any (fun z => z.has_census_data)
        redfin := stateZips.any (fun z => z.has_redfin_data)
        geometry := stateZips.any (fun z => z.has_geometry) }
    childZips := some (stateZips.map (fun z => z.zipcode)) }

/-- The fuzzy county membership filter (lines 477-482):
same state code, a truthy `redfin_county_name`, and the county name's
first comma segment contained in it (lower-cased). -/
def countyZipFilter (ci : CountyInfo) (z : ZipMasterRecord) : Bool :=
  z.state_code == ci.state_code &&
  (match z.redfin_county_name with
   | some cn => !cn.toList.isEmpty && strContains (jsToLower cn) (firstSegLower ci.county_name)
   | none => false)

/-- The county entry built for one taxonomy county (lines 473-505). -/
def mkCountyLocation (tax : RedfinMasterIndex) (mz : List ZipMasterRecord)
    (ci : CountyInfo) : UnifiedLocation :=
  let countyZips := mz.filter (countyZipFilter ci)
  let stateName := getStateName tax ci.state_code
  { stateCode := ci.state_code
    stateName := stateName
    propertyTypes := ci.property_types
    primaryTableId := ci.primary_table_id
    hierarchicalPath := stateName ++ " > " ++ ci.county_name
    coordinates :=
      match countyZips.head? with
      | some r => (r.INTPTLAT, r.INTPTLON)
      | none => (0, 0)
    hasData :=
      { census := countyZips.any (fun z => z.has_census_data)
        redfin := countyZips.any (fun z => z.has_redfin_data)
        geometry := countyZips.any (fun z => z.has_geometry) }
    parentState := some stateName
    childCities := some ci.cities
    childZips := some (countyZips.map (fun z => z.zipcode)) }

/-- The fuzzy city membership filter (lines 512-517): same state code and
the city name's first comma segment contained in `redfin_city` or
`census_city` (optional chaining: absent fields fail). -/
def cityZipFilter (ci : CityInfo) (z : ZipMasterRecord) : Bool :=
  z.state_code == ci.state_code &&
  ((match z.redfin_city with
    | some c => strContains (jsToLower c) (firstSegLower ci.city_name)
    | none => false) ||
   (match z.census_city with
    | some c => strContains (jsToLower c) (firstSegLower ci.city_name)
    | none => false))

/-- The city entry built for one taxonomy city (lines 508-539). -/
def mkCityLocation (tax : RedfinMasterIndex) (mz : List ZipMasterRecord)
    (ci : CityInfo) : UnifiedLocation :=
  let cityZips := mz.filter (cityZipFilter ci)
  let stateName := getStateName tax ci.state_code
  { stateCode := ci.state_code
    stateName := stateName
    propertyTypes := ci.property_types
    primaryTableId := ci.primary_table_id
    hierarchicalPath := stateName ++ " > " ++ ci.city_name
    coordinates :=
      match cityZips.head? with
      | some r => (r.INTPTLAT, r.INTPTLON)
      | none => (0, 0)
    hasData :=
      { census := cityZips.any (fun z => z.has_census_data)
        redfin := cityZips.any (fun z => z.has_redfin_data)
        geometry := cityZips.any (fun z => z.has_geometry) }
    parentState := some stateName
    childZips := some (cityZips.map (fun z => z.zipcode)) }

/-- The zip entry built for one taxonomy zip code (lines 542-571): exact
zipcode lookup through the auxiliary map; a missing flat record leaves
coordinates at `(0,0)` and every availability flag `false`. -/
def mkZipLocation (tax : RedfinMasterIndex) (mz : List ZipMasterRecord)
    (zipCode : String) (zi : ZipInfo) : UnifiedLocation :=
  let zipMasterRecord := zipLookup mz zipCode
  let stateName := getStateName tax zi.state_code
  { zipCode := some zipCode
    stateCode := zi.state_code
    stateName := stateName
    propertyTypes := zi.property_types
    primaryTableId := zi.primary_table_id
    hierarchicalPath := stateName ++ " > " ++ zipCode
    coordinates :=
      match zipMasterRecord with
      | some r => (r.INTPTLAT, r.INTPTLON)
      | none => (0, 0)
    geoJsonFile := zipMasterRecord.map (fun r => r.geojson_file)
    dataFile := zipMasterRecord.map (fun r => r.data_file)
    hasData :=
      { census := (zipMasterRecord.map (fun r => r.has_census_data)).getD false
        redfin := (zipMasterRecord.map (fun r => r.has_redfin_data)).getD false
        geometry := (zipMasterRecord.map (fun r => r.has_geometry)).getD false }
    landArea := zipMasterRecord.map (fun r => r.ALAND)
    waterArea := zipMasterRecord.map (fun r => r.AWATER)
    metroRegion := zipMasterRecord.bind (fun r => r.parent_metro_region)
    dataSource := zipMasterRecord.map (fun r => r.data_source)
    parentState := some stateName
    parentCounty := zipMasterRecord.bind (fun r => r.redfin_county_name) }

/-- The four passes of `buildUnifiedLookup` (lines 435-574), starting
from a given map state (the service's `unifiedLookup`, empty on a fresh
instance).  Insertion order is states, counties, cities, zips. -/
def buildUnifiedLookupFrom (m₀ : List (String × UnifiedLocation))
    (tax : RedfinMasterIndex) (mz : List ZipMasterRecord) :
    List (String × UnifiedLocation) :=
  let m₁ := tax.states.foldl
    (fun m p => mapSet m ("state:" ++ p.2.state_code) (mkStateLocation mz p.1 p.2)) m₀
  let m₂ := tax.counties.foldl
    (fun m p => mapSet m ("county:" ++ p.1) (mkCountyLocation tax mz p.2)) m₁
  let m₃ := tax.cities.foldl
    (fun m p => mapSet m ("city:" ++ p.1) (mkCityLocation tax mz p.2)) m₂
  tax.zip_codes.foldl
    (fun m p => mapSet m ("zip:" ++ p.1) (mkZipLocation tax mz p.1 p.2)) m₃

/-- `buildUnifiedLookup` on a fresh service instance. -/
def buildUnifiedLookup (tax : RedfinMasterIndex) (mz : List ZipMasterRecord) :
    List (String × UnifiedLocation) :=
  buildUnifiedLookupFrom [] tax mz

/-- Insert into a list sorted by `le` (model of the stable comparator
sorts of the query methods). -/
def insertSorted (le : α → α → Bool) (x : α) : List α → List α
  | [] => [x]
  | y :: ys => if le x y then x :: y :: ys else y :: insertSorted le x ys

/-- Insertion sort (the `Array.prototype.sort` of the query methods;
`localeCompare` is modelled as code-point order). -/
def insertionSort (le : α → α → Bool) : List α → List α
  | [] => []
  | x :: xs => insertSorted le x (insertionSort le xs)

/-- Code-point comparison of char lists (the model of
`localeCompare`-based ordering). -/
def charListLe : List Char → List Char → Bool
  | [], _ => true
  | _ :: _, [] => false
  | a :: as, b :: bs =>
    if a.toNat < b.toNat then true
    else if b.toNat < a.toNat then false
    else charListLe as bs

/-- Path comparator of `getCitiesInState`
(`a.hierarchicalPath.localeCompare(b.hierarchicalPath)`, modelled as
code-point order). -/
def pathLe (a b : UnifiedLocation) : Bool :=
  charListLe a.hierarchicalPath.toList b.hierarchicalPath.toList

/-- The filter of `getCitiesInState` (lines 615-620): same state code,
exactly two path segments, and no `"County"` substring in the path. -/
def cityQueryFilter (stateCode : String) (loc : UnifiedLocation) : Bool :=
  loc.stateCode == stateCode &&
  (jsSplitStr " > " loc.hierarchicalPath).length == 2 &&
  !strContains loc.hierarchicalPath "County"

/-- `getCitiesInState` (lines 612-622) over a given `unifiedLookup`. -/
def getCitiesInState (lookup : List (String × UnifiedLocation)) (stateCode : String) :
    List UnifiedLocation :=
  insertionSort pathLe ((lookup.map (fun p => p.2)).filter (cityQueryFilter stateCode))

/-!
## Concrete fixtures used by witnesses and counterexamples
-/

/-- A county index row matching area `"031"` only by name substring. -/
def exRowA : JRow :=
  [("NAME", .vstr "region 031"), ("COUNTYFP", .vstr "999"), ("table_id", .vnum 1)]

/-- A county index row matching area `"031"` only after normalization. -/
def exRowB : JRow :=
  [("NAME", .vstr "other"), ("COUNTYFP", .vstr "031"), ("table_id", .vnum 2)]

/-- A cache holding those two county rows for `"NV"`. -/
def exCountyCache : StateCache :=
  fun k => if k == "NV" then some ⟨[exRowA, exRowB], [], [], 0⟩ else none

/-- The empty state cache. -/
def emptyCache : StateCache := fun _ => none

/-- A fetch oracle whose county file load throws, whose zip file succeeds
with a two-column CSV, and whose tract file gets a 404. -/
def exFetch : String → String → FetchResult :=
  fun _ lvl =>
    if lvl == "county" then .failed
    else if lvl == "zip" then .ok "ZIPCODE,redfin_tableid_zip,NAME\n89101,555,Las Vegas\n"
    else .httpError 404

/-- A cache with one populated state, for the frame-property witness. -/
def exStateCache : StateCache :=
  fun k => if k == "NV" then some ⟨[exRowA], [], [], 3⟩ else none

/-- Two Redfin data rows for the payload-reduction witness. -/
def exRedfinRows : List JRow :=
  [[("table_id", .vnum 10), ("region", .vstr "a")],
   [("table_id", .vnum 20), ("region", .vstr "b")]]

/-- Taxonomy zip entry `"90210"` of the §8 scenario. -/
def exZi : ZipInfo :=
  { zip_code := "90210", state_code := "CA"
    property_types := [("SFR", ⟨"Single Family Residential", "90210001"⟩)]
    primary_table_id := 90210001 }

/-- A small taxonomy: California, one city, one zip. -/
def exTax : RedfinMasterIndex :=
  { states := [("California", ⟨"CA", [], 1001⟩)]
    counties := []
    cities := [("Beverly Hills, CA", ⟨"Beverly Hills", "CA", [], 1201⟩)]
    zip_codes := [("90210", exZi)] }

/-- The flat record of the §8 scenario (coordinates as exact rationals). -/
def exRecord : ZipMasterRecord :=
  { zipcode := "90210", state_code := "CA", state_name := "California"
    data_source := "mock", has_census_data := true, has_redfin_data := true
    has_geometry := true, geojson_file := "/mock/90210.geojson"
    data_file := "/mock/90210_data.json", redfin_city := some "Beverly Hills"
    census_city := some "Beverly Hills", redfin_county_name := some "Los Angeles County"
    INTPTLAT := ⟨340901, 4⟩, INTPTLON := ⟨-1184065, 4⟩
    ALAND := 14000000, AWATER := 0 }

/-!
## Theorems settling the claims, with their supporting lemmas
-/

/-- C10: `clearStateCache` with an argument removes exactly that state's
entry and leaves every other key's entry untouched; with no argument it
empties the whole cache. -/
theorem clearStateCache_frame (cache : StateCache) (s : String) :
    clearStateCache cache (some s) s = none ∧
    (∀ k, k ≠ s → clearStateCache cache (some s) k = cache k) ∧
    (∀ k, clearStateCache cache none k = none) := by
  refine ⟨by simp [clearStateCache], ?_, fun k => rfl⟩
  intro k hk
  simp [clearStateCache, hk]

theorem clearStateCache_frame_witness :
    clearStateCache exStateCache (some "CA") "NV" = exStateCache "NV" ∧
    clearStateCache exStateCache (some "NV") "NV" = none :=
  ⟨(clearStateCache_frame exStateCache "CA").2.1 "NV" (by decide),
   (clearStateCache_frame exStateCache "NV").1⟩

/-- C2: starting from a cache without the state, the first
`loadStateIndexes` call fetches each of the three index files exactly
once, the second call fetches nothing and returns `true`, the cache after
the second call is the cache after the first, and the first call stored
the parsed entry. -/
theorem loadStateIndexes_single_fetch (fetch : String → String → FetchResult)
    (cache : StateCache) (st : String) (now₁ now₂ : Nat) (h : cache st = none) :
    (loadStateIndexes fetch cache st now₁).2.2 ++
        (loadStateIndexes fetch (loadStateIndexes fetch cache st now₁).2.1 st now₂).2.2 =
      [(st, "county"), (st, "zip"), (st, "tract")] ∧
    (loadStateIndexes fetch (loadStateIndexes fetch cache st now₁).2.1 st now₂).1 = true ∧
    (loadStateIndexes fetch (loadStateIndexes fetch cache st now₁).2.1 st now₂).2.1 =
      (loadStateIndexes fetch cache st now₁).2.1 ∧
    (loadStateIndexes fetch cache st now₁).2.1 st =
      some ⟨loadStateCSV fetch st "county", loadStateCSV fetch st "zip",
        loadStateCSV fetch st "tract", now₁⟩ := by
  refine ⟨?_, ?_, ?_, ?_⟩ <;> simp [loadStateIndexes, h]

theorem loadStateIndexes_single_fetch_witness :
    emptyCache "NV" = none ∧
    ((loadStateIndexes exFetch emptyCache "NV" 1).2.2 ++
        (loadStateIndexes exFetch (loadStateIndexes exFetch emptyCache "NV" 1).2.1 "NV" 2).2.2 =
      [("NV", "county"), ("NV", "zip"), ("NV", "tract")] ∧
    (loadStateIndexes exFetch (loadStateIndexes exFetch emptyCache "NV" 1).2.1 "NV" 2).1 = true ∧
    (loadStateIndexes exFetch (loadStateIndexes exFetch emptyCache "NV" 1).2.1 "NV" 2).2.1 =
      (loadStateIndexes exFetch emptyCache "NV" 1).2.1 ∧
    (loadStateIndexes exFetch emptyCache "NV" 1).2.1 "NV" =
      some ⟨loadStateCSV exFetch "NV" "county", loadStateCSV exFetch "NV" "zip",
        loadStateCSV exFetch "NV" "tract", 1⟩) :=
  ⟨rfl, loadStateIndexes_single_fetch exFetch emptyCache "NV" 1 2 rfl⟩

/-- C5: on a cache miss the load always succeeds and stores an entry
whose three collections are the three parsed files, and any file whose
fetch failed (non-OK status or thrown error) contributes the empty
collection. -/
theorem loadStateIndexes_partial_failure (fetch : String → String → FetchResult)
    (cache : StateCache) (st : String) (now : Nat) (h : cache st = none) :
    (loadStateIndexes fetch cache st now).1 = true ∧
    (loadStateIndexes fetch cache st now).2.1 st =
      some ⟨loadStateCSV fetch st "county", loadStateCSV fetch st "zip",
        loadStateCSV fetch st "tract", now⟩ ∧
    (∀ level, fetchFailed (fetch st level) = true → loadStateCSV fetch st level = []) := by
  refine ⟨by simp [loadStateIndexes, h], by simp [loadStateIndexes, h], ?_⟩
  intro level hf
  cases hfr : fetch st level with
  | ok body => rw [hfr] at hf; simp [fetchFailed] at hf
  | httpError s => simp [loadStateCSV, hfr]
  | failed => simp [loadStateCSV, hfr]

theorem loadStateIndexes_partial_failure_witness :
    ((loadStateIndexes exFetch emptyCache "NV" 7).1 = true ∧
    (loadStateIndexes exFetch emptyCache "NV" 7).2.1 "NV" =
      some ⟨loadStateCSV exFetch "NV" "county", loadStateCSV exFetch "NV" "zip",
        loadStateCSV exFetch "NV" "tract", 7⟩ ∧
    (∀ level, fetchFailed (exFetch "NV" level) = true → loadStateCSV exFetch "NV" level = [])) ∧
    fetchFailed (exFetch "NV" "county") = true ∧
    loadStateCSV exFetch "NV" "county" = [] ∧
    loadStateCSV exFetch "NV" "zip" ≠ [] :=
  ⟨loadStateIndexes_partial_failure exFetch emptyCache "NV" 7 rfl,
   by decide, by decide, by decide⟩

/-- C4: with an empty relevant-ID set the Redfin payload filter returns
its input unchanged; with a non-empty set it returns exactly the records
whose `table_id` parses to a member of the set, in input order (a
sublist of the input). -/
theorem filterRedfinByRelevantIds_spec (redfinData : List JRow) (relevantIds : List Int) :
    (relevantIds = [] → filterRedfinByRelevantIds redfinData relevantIds = redfinData) ∧
    (relevantIds ≠ [] →
      filterRedfinByRelevantIds redfinData relevantIds =
        redfinData.filter (fun r => jnumMem (jsParseInt (jget r "table_id")) relevantIds) ∧
      (filterRedfinByRelevantIds redfinData relevantIds).Sublist redfinData ∧
      (∀ r, r ∈ filterRedfinByRelevantIds redfinData relevantIds ↔
        r ∈ redfinData ∧ jnumMem (jsParseInt (jget r "table_id")) relevantIds = true)) := by
  constructor
  · intro h
    simp [filterRedfinByRelevantIds, h]
  · intro h
    have hne : relevantIds.isEmpty = false := by
      cases relevantIds with
      | nil => exact absurd rfl h
      | cons a t => rfl
    refine ⟨by simp [filterRedfinByRelevantIds, hne], ?_, ?_⟩
    · simp only [filterRedfinByRelevantIds, hne, Bool.false_eq_true, if_false]
      exact List.filter_sublist _
    · intro r
      simp [filterRedfinByRelevantIds, hne, List.mem_filter]

theorem filterRedfinByRelevantIds_spec_witness :
    filterRedfinByRelevantIds exRedfinRows [] = exRedfinRows ∧
    filterRedfinByRelevantIds exRedfinRows [20] =
      exRedfinRows.filter (fun r => jnumMem (jsParseInt (jget r "table_id")) [20]) ∧
    filterRedfinByRelevantIds exRedfinRows [20] =
      [[("table_id", .vnum 20), ("region", .vstr "b")]] :=
  ⟨(filterRedfinByRelevantIds_spec exRedfinRows []).1 rfl,
   ((filterRedfinByRelevantIds_spec exRedfinRows [20]).2 (by decide)).1,
   by decide⟩

/-- A character that is a decimal digit is not whitespace. -/
theorem isDigit_not_whitespace (c : Char) (h : c.isDigit = true) :
    c.isWhitespace = false := by
  by_contra hw
  rw [Bool.not_eq_false] at hw
  simp [Char.isWhitespace] at hw
  rcases hw with ((h1 | h1) | h1) | h1 <;> subst h1 <;> exact absurd h (by decide)

/-- `dropWhile` is the identity when no element satisfies the predicate. -/
theorem dropWhile_eq_self_of_not (p : Char → Bool) (l : List Char)
    (h : ∀ c ∈ l, p c = false) : l.dropWhile p = l := by
  cases l with
  | nil => rfl
  | cons x xs =>
    rw [List.dropWhile_cons, h x (by simp)]
    simp

/-- Trimming is the identity on all-digit char lists. -/
theorem trimList_eq_self_of_digits (l : List Char) (h : ∀ c ∈ l, c.isDigit = true) :
    trimList l = l := by
  unfold trimList
  rw [dropWhile_eq_self_of_not _ _ (fun c hc => isDigit_not_whitespace c (h c hc))]
  rw [dropWhile_eq_self_of_not _ _ (fun c hc => isDigit_not_whitespace c (h c (by simpa using hc)))]
  simp

/-- `toList` of a constructed string is its char list. -/
theorem toList_mk (l : List Char) : (String.mk l).toList = l := rfl

/-- `padStart` does nothing once the string is long enough. -/
theorem padStart_of_le (n : Nat) (c : Char) (s : String) (h : n ≤ s.toList.length) :
    padStart n c s = s := by
  unfold padStart
  rw [if_pos h]

/-- Every character of `padStart n '0' s` is a digit when every character
of `s` is. -/
theorem padStart_digits (n : Nat) (s : String) (h : ∀ c ∈ s.toList, c.isDigit = true) :
    ∀ c ∈ (padStart n '0' s).toList, c.isDigit = true := by
  intro c hc
  unfold padStart at hc
  by_cases hl : n ≤ s.toList.length
  · rw [if_pos hl] at hc
    exact h c hc
  · rw [if_neg hl, toList_mk] at hc
    rcases List.mem_append.mp hc with hc | hc
    · obtain rfl := List.eq_of_mem_replicate hc
      decide
    · exact h c hc

/-- The length of `padStart n c s` is at least `n`. -/
theorem padStart_length (n : Nat) (c : Char) (s : String) :
    n ≤ (padStart n c s).toList.length := by
  unfold padStart
  by_cases hl : n ≤ s.toList.length
  · rw [if_pos hl]
    exact hl
  · rw [if_neg hl, toList_mk, List.length_append, List.length_replicate]
    omega

/-- Characterization of `normalizeZipCode` output: either the empty
string (falsy non-zero input) or an all-digit string of length at least
five. -/
theorem normalizeZipCode_cases (v : JVal) :
    normalizeZipCode v = "" ∨
    ((∀ c ∈ (normalizeZipCode v).toList, c.isDigit = true) ∧
      5 ≤ (normalizeZipCode v).toList.length) := by
  unfold normalizeZipCode
  by_cases hf : (jsFalsy v && !(v == JVal.vnum 0)) = true
  · left
    rw [if_pos hf]
  · right
    rw [if_neg hf]
    refine ⟨padStart_digits _ _ ?_, padStart_length _ _ _⟩
    intro c hc
    simp only [stripNonDigits, toList_mk] at hc
    exact List.of_mem_filter hc

/-- `toList` round-trip. -/
theorem mk_toList (s : String) : String.mk s.toList = s := rfl

/-- `padStart` reaches exactly `n` when the input is no longer than `n`. -/
theorem padStart_length_eq (n : Nat) (c : Char) (s : String)
    (h : s.toList.length ≤ n) : (padStart n c s).toList.length = n := by
  unfold padStart
  by_cases hl : n ≤ s.toList.length
  · rw [if_pos hl]
    omega
  · rw [if_neg hl, toList_mk, List.length_append, List.length_replicate]
    omega

/-- `normalizeZipCode` fixes every all-digit string of length ≥ 5. -/
theorem normalizeZipCode_fixed (s : String) (hd : ∀ c ∈ s.toList, c.isDigit = true)
    (hl : 5 ≤ s.toList.length) : normalizeZipCode (.vstr s) = s := by
  have hne : s.toList ≠ [] := by
    intro hh
    rw [hh] at hl
    simp at hl
  unfold normalizeZipCode
  rw [if_neg (by simp [jsFalsy, List.isEmpty_iff]; exact hne)]
  show padStart 5 '0' (stripNonDigits (jsTrim s)) = s
  rw [jsTrim, trimList_eq_self_of_digits _ hd, mk_toList]
  rw [stripNonDigits, List.filter_eq_self.mpr hd, mk_toList]
  exact padStart_of_le _ _ _ hl

/-- C8 amended: a canonical 5-digit ZIP is returned unchanged;
`normalizeZipCode` is idempotent on every input; and the output is a
5-digit string exactly in the intended cases — whenever the input is not
the falsy-non-zero guard case and carries at most five digit characters.
(Inputs with more than five digits yield all their digits, longer than
five — the part of the original claim refuted by the counterexample.) -/
theorem normalizeZipCode_idempotent_spec :
    (∀ s : String, (∀ c ∈ s.toList, c.isDigit = true) → s.toList.length = 5 →
      normalizeZipCode (.vstr s) = s) ∧
    (∀ v : JVal, normalizeZipCode (.vstr (normalizeZipCode v)) = normalizeZipCode v) ∧
    (∀ v : JVal, (jsFalsy v && !(v == JVal.vnum 0)) = false →
      (stripNonDigits (jsTrim (jsToString v))).toList.length ≤ 5 →
      (normalizeZipCode v).toList.length = 5 ∧
        ∀ c ∈ (normalizeZipCode v).toList, c.isDigit = true) := by
  refine ⟨fun s hd hl => normalizeZipCode_fixed s hd (by omega), ?_, ?_⟩
  · intro v
    rcases normalizeZipCode_cases v with h | ⟨hd, hl⟩
    · rw [h]
      rfl
    · exact normalizeZipCode_fixed _ hd hl
  · intro v hcond hlen
    have hout : normalizeZipCode v = padStart 5 '0' (stripNonDigits (jsTrim (jsToString v))) := by
      unfold normalizeZipCode
      rw [hcond]
      rfl
    constructor
    · rw [hout]
      exact padStart_length_eq _ _ _ hlen
    · rw [hout]
      refine padStart_digits _ _ ?_
      intro c hc
      simp only [stripNonDigits, toList_mk] at hc
      exact List.of_mem_filter hc

theorem normalizeZipCode_idempotent_spec_witness :
    normalizeZipCode (.vstr "12045") = "12045" ∧
    normalizeZipCode (.vstr (normalizeZipCode (.vstr "7"))) = normalizeZipCode (.vstr "7") ∧
    ((normalizeZipCode (.vstr "7")).toList.length = 5 ∧
      ∀ c ∈ (normalizeZipCode (.vstr "7")).toList, c.isDigit = true) :=
  ⟨normalizeZipCode_idempotent_spec.1 "12045" (by decide) (by decide),
   normalizeZipCode_idempotent_spec.2.1 (.vstr "7"),
   normalizeZipCode_idempotent_spec.2.2 (.vstr "7") (by decide) (by decide)⟩

/-- C8 counterexample: on `"123456"` the function is idempotent but the
result is the six-digit string itself, not a 5-digit string, refuting
"normalizing the output of normalizeZipCode again yields the same
5-digit string" for every non-null input. -/
theorem normalizeZipCode_not_always_five_digits :
    normalizeZipCode (.vstr "123456") = "123456" ∧
    normalizeZipCode (.vstr (normalizeZipCode (.vstr "123456"))) = "123456" ∧
    (normalizeZipCode (.vstr "123456")).toList.length ≠ 5 := by
  decide

/-- Membership in the helper behind `[...new Set(l)]`. -/
theorem mem_dedupAux (seen l : List String) (x : String) :
    x ∈ dedupAux seen l ↔ x ∈ l ∧ x ∉ seen := by
  induction l generalizing seen with
  | nil => simp [dedupAux]
  | cons y ys ih =>
    by_cases hy : seen.contains y
    · rw [dedupAux, if_pos hy, ih]
      constructor
      · rintro ⟨hx, hs⟩
        exact ⟨List.mem_cons_of_mem _ hx, hs⟩
      · rintro ⟨hx, hs⟩
        rcases List.mem_cons.mp hx with rfl | hx
        · exact absurd (List.mem_of_elem_eq_true hy) hs
        · exact ⟨hx, hs⟩
    · rw [dedupAux, if_neg hy]
      constructor
      · intro hx
        rcases List.mem_cons.mp hx with rfl | hx
        · refine ⟨List.mem_cons_self _ _, ?_⟩
          intro hs
          exact hy (List.elem_eq_true_of_mem hs)
        · rcases (ih _).mp hx with ⟨h1, h2⟩
          refine ⟨List.mem_cons_of_mem _ h1, ?_⟩
          intro hs
          exact h2 (List.mem_cons_of_mem _ hs)
      · rintro ⟨hx, hs⟩
        rcases List.mem_cons.mp hx with rfl | hx
        · exact List.mem_cons_self _ _
        · by_cases hxy : x = y
          · subst hxy
            exact List.mem_cons_self _ _
          · refine List.mem_cons_of_mem _ ((ih _).mpr ⟨hx, ?_⟩)
            intro hmem
            rcases List.mem_cons.mp hmem with h | h
            · exact hxy h
            · exact hs h

/-- Membership passes through `[...new Set(l)]`. -/
theorem mem_dedupFirst (l : List String) (x : String) :
    x ∈ dedupFirst l ↔ x ∈ l := by
  rw [dedupFirst, mem_dedupAux]
  simp

/-- The helper behind `[...new Set(l)]` never repeats an element. -/
theorem nodup_dedupAux (seen l : List String) : (dedupAux seen l).Nodup := by
  induction l generalizing seen with
  | nil => simp [dedupAux]
  | cons y ys ih =>
    by_cases hy : seen.contains y
    · rw [dedupAux, if_pos hy]
      exact ih _
    · rw [dedupAux, if_neg hy]
      refine List.Nodup.cons ?_ (ih _)
      intro hmem
      exact ((mem_dedupAux _ _ _).mp hmem).2 (List.mem_cons_self _ _)

/-- `[...new Set(l)]` is duplicate free. -/
theorem nodup_dedupFirst (l : List String) : (dedupFirst l).Nodup :=
  nodup_dedupAux [] l

/-- The id string itself is always among its variations. -/
theorem self_mem_countyIdVariations (s : String) (pre : Option String) :
    s ∈ countyIdVariations s pre := by
  rcases pre with _ | p <;>
    (unfold countyIdVariations; dsimp only; split_ifs <;> simp)

/-- The state-prefixed form is among the variations of a 3-character id
with a truthy prefix. -/
theorem prefix_mem_countyIdVariations (s p : String) (hp : p.toList ≠ [])
    (h3 : s.toList.length = 3) : (p ++ s) ∈ countyIdVariations s (some p) := by
  have h3' : s.length = 3 := h3
  have hpe : p.toList.isEmpty = false := by
    cases hl : p.toList with
    | nil => exact absurd hl hp
    | cons a t => rfl
  unfold countyIdVariations
  dsimp only
  rw [if_neg (by simp [h3']), if_neg (by simp [h3']), if_pos (by simp [h3']; exact hp)]
  simp

/-- The `0`-prefixed form is among the variations of a 4-character id. -/
theorem pad_mem_countyIdVariations (s : String) (pre : Option String)
    (h4 : s.toList.length = 4) : ("0" ++ s) ∈ countyIdVariations s pre := by
  have h4' : s.length = 4 := h4
  rcases pre with _ | p
  · unfold countyIdVariations
    dsimp only
    rw [if_neg (by simp [h4']), if_pos (by simp [h4'])]
    simp
  · unfold countyIdVariations
    dsimp only
    rw [if_neg (by simp [h4']), if_pos (by simp [h4']), if_neg (by simp [h4'])]
    simp

/-- The first-character-dropped form is among the variations of a
5-character id. -/
theorem drop_mem_countyIdVariations (s : String) (pre : Option String)
    (h5 : s.toList.length = 5) : String.mk (s.toList.drop 1) ∈ countyIdVariations s pre := by
  have h5' : s.length = 5 := h5
  unfold countyIdVariations
  dsimp only
  rw [if_pos (by simp [h5'])]
  simp

/-- C3 amended: `normalizeCountyId` returns `[]` on falsy input;
otherwise its output contains the trimmed string form of the id
(no digit stripping is performed), plus the state-prefixed form when
the id has exactly 3 characters and a non-empty prefix is supplied, plus
the `0`-prefixed 5-character form when it has 4 characters, plus the
form with the first character removed (the trailing four characters)
when it has 5 characters; the output never repeats an entry; and
normalizing `"1"` with state prefix `"06"` yields exactly `["1"]`. -/
theorem normalizeCountyId_spec (id : JVal) (pre : Option String) :
    (jsFalsy id = true → normalizeCountyId id pre = []) ∧
    (jsFalsy id = false →
      jsTrim (jsToString id) ∈ normalizeCountyId id pre ∧
      (∀ p, pre = some p → p.toList ≠ [] → (jsTrim (jsToString id)).toList.length = 3 →
        (p ++ jsTrim (jsToString id)) ∈ normalizeCountyId id pre) ∧
      ((jsTrim (jsToString id)).toList.length = 4 →
        ("0" ++ jsTrim (jsToString id)) ∈ normalizeCountyId id pre) ∧
      ((jsTrim (jsToString id)).toList.length = 5 →
        String.mk ((jsTrim (jsToString id)).toList.drop 1) ∈ normalizeCountyId id pre) ∧
      (normalizeCountyId id pre).Nodup) ∧
    normalizeCountyId (.vstr "1") (some "06") = ["1"] := by
  refine ⟨?_, ?_, by decide⟩
  · intro h
    unfold normalizeCountyId
    rw [if_pos h]
  · intro h
    have heq : normalizeCountyId id pre =
        dedupFirst (countyIdVariations (jsTrim (jsToString id)) pre) := by
      unfold normalizeCountyId
      rw [if_neg (by simp [h])]
    refine ⟨?_, ?_, ?_, ?_, ?_⟩
    · rw [heq, mem_dedupFirst]
      exact self_mem_countyIdVariations _ _
    · rintro p rfl hp h3
      rw [heq, mem_dedupFirst]
      exact prefix_mem_countyIdVariations _ _ hp h3
    · intro h4
      rw [heq, mem_dedupFirst]
      exact pad_mem_countyIdVariations _ _ h4
    · intro h5
      rw [heq, mem_dedupFirst]
      exact drop_mem_countyIdVariations _ _ h5
    · rw [heq]
      exact nodup_dedupFirst _

theorem normalizeCountyId_spec_witness :
    normalizeCountyId (.vstr " 06001 ") none = ["06001", "6001"] ∧
    "06001" ∈ normalizeCountyId (.vstr " 06001 ") none ∧
    String.mk (("06001" : String).toList.drop 1) ∈ normalizeCountyId (.vstr " 06001 ") none ∧
    "031" ∈ normalizeCountyId (.vstr "031") (some "32") ∧
    ("32" ++ "031") ∈ normalizeCountyId (.vstr "031") (some "32") :=
  ⟨by decide,
   by
     have h := ((normalizeCountyId_spec (.vstr " 06001 ") none).2.1 (by decide)).1
     simpa using h,
   ((normalizeCountyId_spec (.vstr " 06001 ") none).2.1 (by decide)).2.2.2.1 (by decide),
   ((normalizeCountyId_spec (.vstr "031") (some "32")).2.1 (by decide)).1,
   ((normalizeCountyId_spec (.vstr "031") (some "32")).2.1 (by decide)).2.1 "32" rfl
     (by decide) (by decide)⟩

/-- C3 counterexample: the claim fails on the code in three ways at
concrete inputs — `normalizeCountyId "1"` with state prefix `"06"` is
`["1"]` and does not contain `"06001"`; non-digit characters are not
stripped (`"a5"` stays `"a5"`); and a 5-digit id contributes its trailing
four digits, not its trailing three (`"06001"` yields `"6001"`, and
`"001"` is absent). -/
theorem normalizeCountyId_claim_false :
    normalizeCountyId (.vstr "1") (some "06") = ["1"] ∧
    ¬("06001" ∈ normalizeCountyId (.vstr "1") (some "06")) ∧
    normalizeCountyId (.vstr "a5") none = ["a5"] ∧
    normalizeCountyId (.vstr "06001") none = ["06001", "6001"] ∧
    ¬("001" ∈ normalizeCountyId (.vstr "06001") none) := by
  decide

/-- C1 amended: for county-level resolution on a cached state, the four
strategies run in the order GEOID exact, `fred_county_fips` exact,
name-substring, normalized.  When both exact strategies fail, a
name-substring hit is returned (its `table_id`, parsed) even if some
other record matches after normalization; the normalized strategy is
attempted only when the exact and name strategies all found no record,
and its first hit's parsed `table_id` is then the result (or `null` when
it too finds nothing). -/
theorem getRedfinId_county_order (cache : StateCache) (st area : String)
    (sd : StateIndexEntry) (hc : cache st = some sd)
    (h₁ : sd.counties.find? (countyExactGeoid area) = none)
    (h₂ : sd.counties.find? (countyExactFred area) = none) :
    (∀ r, sd.counties.find? (countyNameMatch area) = some r →
      getRedfinId cache st area .county = some (jsParseInt (jget r "table_id"))) ∧
    (sd.counties.find? (countyNameMatch area) = none →
      getRedfinId cache st area .county =
        (sd.counties.find? (countyNormMatch area)).map
          (fun r => jsParseInt (jget r "table_id"))) := by
  constructor
  · intro r hr
    unfold getRedfinId
    rw [hc]
    show getRedfinIdCounty sd.counties area = _
    unfold getRedfinIdCounty
    rw [h₁, h₂, hr]
  · intro hn
    unfold getRedfinId
    rw [hc]
    show getRedfinIdCounty sd.counties area = _
    unfold getRedfinIdCounty
    rw [h₁, h₂, hn]
    cases sd.counties.find? (countyNormMatch area) <;> rfl

theorem getRedfinId_county_order_witness :
    exCountyCache "NV" = some ⟨[exRowA, exRowB], [], [], 0⟩ ∧
    [exRowA, exRowB].find? (countyExactGeoid "031") = none ∧
    [exRowA, exRowB].find? (countyExactFred "031") = none ∧
    [exRowA, exRowB].find? (countyNameMatch "031") = some exRowA ∧
    getRedfinId exCountyCache "NV" "031" .county = some (jsParseInt (jget exRowA "table_id")) :=
  ⟨by decide, by decide, by decide, by decide,
   (getRedfinId_county_order exCountyCache "NV" "031" ⟨[exRowA, exRowB], [], [], 0⟩
     (by decide) (by decide) (by decide)).1 exRowA (by decide)⟩

/-- C1 counterexample: with the two concrete rows cached for `"NV"` and
area `"031"`, both exact strategies fail and `exRowB` matches after
normalization with parsed `table_id` 2, yet `getRedfinId` returns 1 —
the `table_id` of the name-substring hit `exRowA` — so the claimed order
(exact, then normalized, with name-substring last) is false on the
code. -/
theorem getRedfinId_county_claimed_order_false :
    [exRowA, exRowB].find? (countyExactGeoid "031") = none ∧
    [exRowA, exRowB].find? (countyExactFred "031") = none ∧
    [exRowA, exRowB].find? (countyNormMatch "031") = some exRowB ∧
    jsParseInt (jget exRowB "table_id") = .int 2 ∧
    getRedfinId exCountyCache "NV" "031" .county = some (.int 1) := by
  decide

section MapLemmas

variable {α : Type}

/-- After replacing every entry keyed `k`, a lookup for the present key
`k` finds the new value. -/
theorem find?_map_replace_self (m : List (String × α)) (k : String) (v : α)
    (h : m.any (fun p => p.1 == k) = true) :
    (m.map (fun p => if p.1 == k then (k, v) else p)).find? (fun p => p.1 == k) =
      some (k, v) := by
  induction m with
  | nil => simp at h
  | cons p t ih =>
    by_cases hp : p.1 = k
    · rw [List.map_cons, if_pos (by simp [hp])]
      simp only [List.find?_cons, beq_self_eq_true]
    · rw [List.any_cons] at h
      rcases (Bool.or_eq_true _ _).mp h with h' | h'
      · exact absurd (by simpa using h') hp
      · rw [List.map_cons, if_neg (by simp [hp])]
        rw [List.find?_cons_of_neg _ (by simp [hp])]
        exact ih h'

/-- Replacing entries keyed `k` does not change lookups for other keys. -/
theorem find?_map_replace_ne (m : List (String × α)) (k k' : String) (v : α)
    (hne : k' ≠ k) :
    (m.map (fun p => if p.1 == k then (k, v) else p)).find? (fun p => p.1 == k') =
      m.find? (fun p => p.1 == k') := by
  induction m with
  | nil => rfl
  | cons p t ih =>
    by_cases hp : p.1 = k
    · rw [List.map_cons, if_pos (by simp [hp])]
      rw [List.find?_cons_of_neg _ (by simp; exact Ne.symm hne)]
      rw [List.find?_cons_of_neg _ (by simp [hp]; exact fun hh => hne hh.symm)]
      exact ih
    · rw [List.map_cons, if_neg (by simp [hp])]
      by_cases hp' : p.1 = k'
      · rw [List.find?_cons_of_pos _ (by simp [hp']), List.find?_cons_of_pos _ (by simp [hp'])]
      · rw [List.find?_cons_of_neg _ (by simp [hp']), List.find?_cons_of_neg _ (by simp [hp'])]
        exact ih

/-- Characterization of `Map.get` after `Map.set`. -/
theorem mapGet_mapSet (m : List (String × α)) (k k' : String) (v : α) :
    mapGet (mapSet m k v) k' = if k' = k then some v else mapGet m k' := by
  unfold mapSet
  by_cases hany : m.any (fun p => p.1 == k) = true
  · rw [if_pos hany]
    by_cases hk : k' = k
    · subst hk
      rw [if_pos rfl]
      unfold mapGet
      rw [find?_map_replace_self m k' v hany]
    · rw [if_neg hk]
      unfold mapGet
      rw [find?_map_replace_ne m k k' v hk]
  · rw [if_neg hany]
    by_cases hk : k' = k
    · subst hk
      rw [if_pos rfl]
      have hnone : m.find? (fun p => p.1 == k') = none := by
        rw [List.find?_eq_none]
        intro p hp hhp
        exact hany (List.any_eq_true.mpr ⟨p, hp, hhp⟩)
      unfold mapGet
      rw [List.find?_append, hnone]
      simp [List.find?]
    · rw [if_neg hk]
      unfold mapGet
      rw [List.find?_append]
      cases hfind : m.find? (fun p => p.1 == k') with
      | some p => simp
      | none =>
        have hkk : (k == k') = false := by
          simp only [beq_eq_false_iff_ne]
          exact fun hh => hk hh.symm
        simp [List.find?, hkk]

end MapLemmas

section FoldLemmas

variable {α β : Type}

/-- Folding `Map.set` writes whose keys all differ from `k` leaves the
lookup at `k` unchanged. -/
theorem mapGet_foldl_mapSet_of_ne (l : List β) (key : β → String) (val : β → α)
    (m : List (String × α)) (k : String) (h : ∀ b ∈ l, key b ≠ k) :
    mapGet (l.foldl (fun m b => mapSet m (key b) (val b)) m) k = mapGet m k := by
  induction l generalizing m with
  | nil => rfl
  | cons b t ih =>
    rw [List.foldl_cons, ih _ (fun x hx => h x (List.mem_cons_of_mem _ hx))]
    rw [mapGet_mapSet, if_neg (fun hh => h b (List.mem_cons_self _ _) hh.symm)]

/-- Folding `Map.set` writes with pairwise distinct keys makes the
lookup at a written key find that write's value, whatever the base map. -/
theorem mapGet_foldl_mapSet_of_mem (l : List β) (key : β → String) (val : β → α)
    (m : List (String × α)) (b₀ : β) (hmem : b₀ ∈ l) (hnd : (l.map key).Nodup) :
    mapGet (l.foldl (fun m b => mapSet m (key b) (val b)) m) (key b₀) = some (val b₀) := by
  induction l generalizing m with
  | nil => cases hmem
  | cons b t ih =>
    rw [List.map_cons, List.nodup_cons] at hnd
    rcases List.mem_cons.mp hmem with rfl | hmem'
    · rw [List.foldl_cons]
      rw [mapGet_foldl_mapSet_of_ne t key val _ _
        (fun x hx hh => hnd.1 (by rw [← hh]; exact List.mem_map_of_mem key hx))]
      rw [mapGet_mapSet, if_pos rfl]
    · rw [List.foldl_cons]
      exact ih _ hmem' hnd.2

/-- Inversion for folded `Map.set` writes: a successful lookup comes
from one of the writes or from the base map. -/
theorem mapGet_foldl_mapSet_inv (l : List β) (key : β → String) (val : β → α)
    (m : List (String × α)) (k : String) (w : α)
    (h : mapGet (l.foldl (fun m b => mapSet m (key b) (val b)) m) k = some w) :
    (∃ b ∈ l, key b = k ∧ val b = w) ∨ mapGet m k = some w := by
  induction l generalizing m with
  | nil => exact Or.inr h
  | cons b t ih =>
    rw [List.foldl_cons] at h
    rcases ih _ h with ⟨b', hb', hk, hv⟩ | hrest
    · exact Or.inl ⟨b', List.mem_cons_of_mem _ hb', hk, hv⟩
    · rw [mapGet_mapSet] at hrest
      by_cases hkk : k = key b
      · rw [if_pos hkk] at hrest
        exact Or.inl ⟨b, List.mem_cons_self _ _, hkk.symm, Option.some.inj hrest⟩
      · rw [if_neg hkk] at hrest
        exact Or.inr hrest

end FoldLemmas

/-- Appending on the right of a fixed string is injective. -/
theorem string_append_right_inj (p a b : String) (h : p ++ a = p ++ b) : a = b := by
  have hd := congrArg String.data h
  simp only [String.data_append] at hd
  exact String.ext (List.append_cancel_left hd)

/-- A successful `zipLookup` returns a record of the flat data set whose
`zipcode` is the looked-up key. -/
theorem zipLookup_some (mz : List ZipMasterRecord) (zc : String) (r : ZipMasterRecord)
    (h : zipLookup mz zc = some r) : r.zipcode = zc ∧ r ∈ mz := by
  unfold zipLookup zipLookupMap at h
  rcases mapGet_foldl_mapSet_inv mz (fun record => record.zipcode) (fun record => record) [] zc r h with
    ⟨b, hb, hk, hv⟩ | hbase
  · subst hv
    exact ⟨hk, hb⟩
  · simp [mapGet, List.find?] at hbase

/-- Membership in an insertion. -/
theorem mem_insertSorted (le : α → α → Bool) (x a : α) (l : List α) :
    a ∈ insertSorted le x l ↔ a = x ∨ a ∈ l := by
  induction l with
  | nil => simp [insertSorted]
  | cons y ys ih =>
    unfold insertSorted
    by_cases hle : le x y
    · simp [hle]
    · simp only [hle, Bool.false_eq_true, if_false, List.mem_cons, ih]
      tauto

/-- Insertion sort preserves membership. -/
theorem mem_insertionSort (le : α → α → Bool) (a : α) (l : List α) :
    a ∈ insertionSort le l ↔ a ∈ l := by
  induction l with
  | nil => simp [insertionSort]
  | cons y ys ih =>
    unfold insertionSort
    rw [mem_insertSorted]
    simp [ih]

/-- C6: the zip pass keys every taxonomy zip entry as `zip:<code>` and
stores the location built by exact zipcode lookup: when the auxiliary map
holds a flat record for the code, coordinates and the three availability
flags come from that record (which belongs to the flat data and carries
that zipcode); when it holds none, coordinates are `(0,0)` and all flags
are `false`; the hierarchical path is the resolved state name followed by
the zip code. -/
theorem buildUnifiedLookup_zip_entry (tax : RedfinMasterIndex) (mz : List ZipMasterRecord)
    (zc : String) (zi : ZipInfo) (hnd : (tax.zip_codes.map Prod.fst).Nodup)
    (hmem : (zc, zi) ∈ tax.zip_codes) :
    mapGet (buildUnifiedLookup tax mz) ("zip:" ++ zc) = some (mkZipLocation tax mz zc zi) ∧
    (mkZipLocation tax mz zc zi).hierarchicalPath =
      getStateName tax zi.state_code ++ " > " ++ zc ∧
    (∀ r, zipLookup mz zc = some r →
      (mkZipLocation tax mz zc zi).coordinates = (r.INTPTLAT, r.INTPTLON) ∧
      (mkZipLocation tax mz zc zi).hasData =
        ⟨r.has_census_data, r.has_redfin_data, r.has_geometry⟩ ∧
      r.zipcode = zc ∧ r ∈ mz) ∧
    (zipLookup mz zc = none →
      (mkZipLocation tax mz zc zi).coordinates = (0, 0) ∧
      (mkZipLocation tax mz zc zi).hasData = ⟨false, false, false⟩) := by
  refine ⟨?_, rfl, ?_, ?_⟩
  · have hnd' : (tax.zip_codes.map (fun p => "zip:" ++ p.1)).Nodup := by
      have hmm : tax.zip_codes.map (fun p => "zip:" ++ p.1) =
          (tax.zip_codes.map Prod.fst).map (fun s => "zip:" ++ s) := by
        rw [List.map_map]
        rfl
      rw [hmm]
      exact hnd.map (fun a b hab => string_append_right_inj _ a b hab)
    unfold buildUnifiedLookup buildUnifiedLookupFrom
    dsimp only
    exact mapGet_foldl_mapSet_of_mem tax.zip_codes (fun p => "zip:" ++ p.1)
      (fun p => mkZipLocation tax mz p.1 p.2) _ (zc, zi) hmem hnd'
  · intro r hr
    have hzl := zipLookup_some mz zc r hr
    refine ⟨?_, ?_, hzl.1, hzl.2⟩ <;> simp [mkZipLocation, hr]
  · intro hr
    constructor <;> simp [mkZipLocation, hr]

theorem buildUnifiedLookup_zip_entry_witness :
    mapGet (buildUnifiedLookup exTax [exRecord]) ("zip:" ++ "90210") =
      some (mkZipLocation exTax [exRecord] "90210" exZi) ∧
    zipLookup [exRecord] "90210" = some exRecord ∧
    (mkZipLocation exTax [exRecord] "90210" exZi).hierarchicalPath = "California > 90210" ∧
    (mkZipLocation exTax [exRecord] "90210" exZi).coordinates =
      (⟨340901, 4⟩, ⟨-1184065, 4⟩) ∧
    (mkZipLocation exTax [exRecord] "90210" exZi).hasData.geometry = true :=
  ⟨(buildUnifiedLookup_zip_entry exTax [exRecord] "90210" exZi (by decide) (by decide)).1,
   by decide, by decide, by decide, by decide⟩

/-- C7 amended: every location the cities query returns has the queried
state code, a hierarchical path of exactly two segments, and no
`"County"` substring in the path — but the query applies no zip-code
test, so zip-level locations satisfying those filters are returned too
(the part of the original claim refuted by the counterexample). -/
theorem getCitiesInState_spec (lookup : List (String × UnifiedLocation)) (s : String)
    (loc : UnifiedLocation) (h : loc ∈ getCitiesInState lookup s) :
    loc.stateCode = s ∧ (jsSplitStr " > " loc.hierarchicalPath).length = 2 ∧
    strContains loc.hierarchicalPath "County" = false := by
  unfold getCitiesInState at h
  rw [mem_insertionSort] at h
  obtain ⟨-, hf⟩ := List.mem_filter.mp h
  unfold cityQueryFilter at hf
  rw [Bool.and_eq_true, Bool.and_eq_true] at hf
  obtain ⟨⟨h1, h2⟩, h3⟩ := hf
  exact ⟨by simpa using h1, by simpa using h2, by simpa using h3⟩

theorem getCitiesInState_spec_witness :
    (mkZipLocation exTax [exRecord] "90210" exZi).stateCode = "CA" ∧
    (jsSplitStr " > " (mkZipLocation exTax [exRecord] "90210" exZi).hierarchicalPath).length = 2 ∧
    strContains (mkZipLocation exTax [exRecord] "90210" exZi).hierarchicalPath "County" = false :=
  getCitiesInState_spec (buildUnifiedLookup exTax [exRecord]) "CA" _ (by decide)

/-- C7 counterexample: on the concrete build, the cities query for `CA`
returns the `90210` zip-level location, whose `zipCode` is set — the
query never filters on `zipCode`, contradicting "zip-level locations are
never returned by the cities query". -/
theorem getCitiesInState_returns_zip_locations :
    mkZipLocation exTax [exRecord] "90210" exZi ∈
      getCitiesInState (buildUnifiedLookup exTax [exRecord]) "CA" ∧
    (mkZipLocation exTax [exRecord] "90210" exZi).zipCode = some "90210" := by
  decide

/-- C9: the index build is deterministic — it is a pure function of the
taxonomy and the flat records (the embedding gives it no clock, random
source or other input), so two runs on equal inputs produce equal maps,
key for key. -/
theorem buildUnifiedLookup_deterministic (tax₁ tax₂ : RedfinMasterIndex)
    (mz₁ mz₂ : List ZipMasterRecord) (htax : tax₁ = tax₂) (hmz : mz₁ = mz₂) :
    buildUnifiedLookup tax₁ mz₁ = buildUnifiedLookup tax₂ mz₂ ∧
    ∀ k, mapGet (buildUnifiedLookup tax₁ mz₁) k = mapGet (buildUnifiedLookup tax₂ mz₂) k := by
  subst htax
  subst hmz
  exact ⟨rfl, fun _ => rfl⟩

theorem buildUnifiedLookup_deterministic_witness :
    buildUnifiedLookup exTax [exRecord] = buildUnifiedLookup exTax [exRecord] ∧
    ∀ k, mapGet (buildUnifiedLookup exTax [exRecord]) k =
      mapGet (buildUnifiedLookup exTax [exRecord]) k :=
  buildUnifiedLookup_deterministic exTax exTax [exRecord] [exRecord] rfl rfl
